import Mathlib

/-!
Shallow embedding of the P2P fiat trading module (`p2p-fiat` library and its
database procedures) for verification of the design specification.

Conventions of the embedding:
- JavaScript numbers carrying amounts, prices and scores are modelled as `Rat`;
  timestamps (`Date.now()`, ISO strings compared by the database) as `Int`
  milliseconds.
- Database reads (`select ... single()`) are modelled as `Option` inputs;
  a function's effect on rows it never writes is the identity on those inputs.
- Thrown `Error(message)` values are modelled as `Except.error message`.
- Regular-expression testing (`new RegExp(p).test(v)`) is abstracted as an
  oracle parameter `test : String → String → Bool`.
-/

deriving instance DecidableEq for Except

namespace P2PFiat

inductive CryptoToken
| HEZ
| PEZ
deriving DecidableEq

inductive FiatCurrency
| TRY
| IQD
| IRR
| EUR
| USD
| GBP
| SEK
| CHF
| NOK
| DKK
| AUD
| CAD
deriving DecidableEq

inductive OfferStatus
| open'
| paused
| locked
| completed
| cancelled
deriving DecidableEq

inductive TradeStatus
| pending
| payment_sent
| completed
| cancelled
| disputed
| refunded
deriving DecidableEq

structure ValidationRule where
  pattern : Option String := none
  minLength : Option Nat := none
  maxLength : Option Nat := none
  required : Bool := false
deriving DecidableEq

structure P2PFiatOffer where
  id : String
  seller_id : String
  token : CryptoToken
  fiat_currency : FiatCurrency
  price_per_unit : Rat
  remaining_amount : Rat
  min_order_amount : Option Rat := none
  max_order_amount : Option Rat := none
  min_buyer_completed_trades : Rat := 0
  min_buyer_reputation : Rat := 0
  status : OfferStatus
  expires_at : Int
deriving DecidableEq

structure P2PFiatTrade where
  id : String
  offer_id : String
  seller_id : String
  buyer_id : String
  buyer_wallet : String
  crypto_amount : Rat
  fiat_amount : Rat
  price_per_unit : Rat
  escrow_locked_amount : Rat
  buyer_marked_paid_at : Option Int := none
  buyer_payment_proof_url : Option String := none
  seller_confirmed_at : Option Int := none
  status : TradeStatus
  payment_deadline : Int
  confirmation_deadline : Option Int := none
  created_at : Int
  completed_at : Option Int := none
  cancelled_by : Option String := none
  cancel_reason : Option String := none
deriving DecidableEq

structure InternalBalance where
  available_balance : Rat
  locked_balance : Rat
deriving DecidableEq

structure ReputationView where
  completed_trades : Rat
  reputation_score : Rat
deriving DecidableEq

/-- Lookup in a string-keyed record, as `paymentDetails[field]`. -/
def lookupStr (m : List (String × String)) (k : String) : Option String :=
  (m.find? (fun p => p.1 == k)).map Prod.snd

/-- The error recorded for one field by `validatePaymentDetails`: the guards are
checked in source order (required, pattern, minLength, maxLength) and each later
assignment to `errors[field]` overwrites the earlier one, so the last failing
check wins; JavaScript truthiness makes an absent, empty or zero rule value skip
its check. -/
def fieldError (test : String → String → Bool) (value : String)
    (r : ValidationRule) : Option String :=
  if r.required && (value == "") then some "This field is required"
  else
    let e1 : Option String :=
      match r.pattern with
      | some p =>
          if (p != "") && (value != "") && !(test p value) then some "Invalid format" else none
      | none => none
    let e2 : Option String :=
      match r.minLength with
      | some m =>
          if (m != 0) && decide (value.length < m) then
            some ("Minimum " ++ toString m ++ " characters")
          else none
      | none => none
    let e3 : Option String :=
      match r.maxLength with
      | some m =>
          if (m != 0) && decide (m < value.length) then
            some ("Maximum " ++ toString m ++ " characters")
          else none
      | none => none
    match e3 with
    | some e => some e
    | none =>
      match e2 with
      | some e => some e
      | none => e1

/-- The function `validatePaymentDetails(paymentDetails, validationRules)`: iterates the rule
entries, reading each field with `paymentDetails[field] || ''`, and returns
`valid = (errors empty)` together with the error map. -/
def validatePaymentDetails (test : String → String → Bool)
    (paymentDetails : List (String × String))
    (validationRules : List (String × ValidationRule)) :
    Bool × List (String × String) :=
  let errors := validationRules.foldl
    (fun acc fr =>
      let value := (lookupStr paymentDetails fr.1).getD ""
      match fieldError test value fr.2 with
      | some e => acc ++ [(fr.1, e)]
      | none => acc) []
  (errors.isEmpty, errors)

/-- The function `markPaymentSent(tradeId, paymentProofUrl?)`: the source issues a single
unconditional row update — it reads neither the authenticated user nor the
current status — setting `buyer_marked_paid_at = now`, the proof url, `status =
'payment_sent'` and `confirmation_deadline = now + 60 * 60 * 1000` ms. -/
def markPaymentSent (now : Int) (paymentProofUrl : Option String)
    (trade : P2PFiatTrade) : P2PFiatTrade :=
  { trade with
    buyer_marked_paid_at := some now
    buyer_payment_proof_url := paymentProofUrl
    status := TradeStatus.payment_sent
    confirmation_deadline := some (now + 60 * 60 * 1000) }

inductive LedgerError
| LockMismatch
deriving DecidableEq

/-- Modelled from the spec: the database procedure `release_escrow_internal`
invoked by `confirmPaymentReceived` is not part of the client source. Per the
Ledger Store contract (releaseTransfer), it atomically decrements the sender's
locked balance by `amount` and increments the recipient's available balance by
`amount`, failing with `LockMismatch` when `from.locked < amount`. -/
def release_escrow_internal (amount : Rat) (fromBal toBal : InternalBalance) :
    Except LedgerError (InternalBalance × InternalBalance) :=
  if fromBal.locked_balance < amount then Except.error LedgerError.LockMismatch
  else Except.ok
    ({ fromBal with locked_balance := fromBal.locked_balance - amount },
     { toBal with available_balance := toBal.available_balance + amount })

structure ConfirmResult where
  trade : P2PFiatTrade
  sellerBal : InternalBalance
  buyerBal : InternalBalance
deriving DecidableEq

/-- The function `confirmPaymentReceived(tradeId)`: requires an authenticated user equal to
the trade's `seller_id` and status `payment_sent`; then calls the
`release_escrow_internal` procedure moving `crypto_amount` from the seller's
locked balance to the buyer's available balance, and finally updates the trade
row to `completed` with `seller_confirmed_at` and `completed_at` set. -/
def confirmPaymentReceived (auth : Option String) (now : Int)
    (tradeLookup : Option P2PFiatTrade) (sellerBal buyerBal : InternalBalance) :
    Except String ConfirmResult :=
  match auth with
  | none => Except.error "Not authenticated"
  | some sellerId =>
    match tradeLookup with
    | none => Except.error "Trade not found"
    | some trade =>
      if trade.seller_id != sellerId then Except.error "Only seller can confirm"
      else if trade.status != TradeStatus.payment_sent then
        Except.error "Payment not marked as sent"
      else
        match release_escrow_internal trade.crypto_amount sellerBal buyerBal with
        | Except.error _ => Except.error "Failed to release"
        | Except.ok sb =>
          Except.ok
            { trade := { trade with
                seller_confirmed_at := some now
                status := TradeStatus.completed
                completed_at := some now }
              sellerBal := sb.1
              buyerBal := sb.2 }

structure CancelResult where
  trade : P2PFiatTrade
  offer : Option P2PFiatOffer
  makerBal : InternalBalance
deriving DecidableEq

/-- The function `cancelTrade(tradeId, reason?)`: requires an authenticated user and a
`pending` trade; updates the trade row to `cancelled` and, when the backing
offer row is found, increments its `remaining_amount` by the trade's
`crypto_amount` and sets its status to `'open'` unconditionally. The source
makes no ledger call on this path, so the maker's balance is returned
unchanged. -/
def cancelTrade (auth : Option String) (reason : Option String)
    (tradeLookup : Option P2PFiatTrade) (offerLookup : Option P2PFiatOffer)
    (makerBal : InternalBalance) : Except String CancelResult :=
  match auth with
  | none => Except.error "Not authenticated"
  | some userId =>
    match tradeLookup with
    | none => Except.error "Trade not found"
    | some trade =>
      if trade.status != TradeStatus.pending then
        Except.error "Cannot cancel at this stage"
      else
        Except.ok
          { trade := { trade with
              status := TradeStatus.cancelled
              cancelled_by := some userId
              cancel_reason := reason }
            offer := offerLookup.map (fun o =>
              { o with
                remaining_amount := o.remaining_amount + trade.crypto_amount
                status := OfferStatus.open' })
            makerBal := makerBal }

/-- The arguments of the `accept_p2p_offer` remote procedure call: reaching this
call is the single state-mutating step of `acceptFiatOffer`. -/
structure AcceptRpcCall where
  p_offer_id : String
  p_buyer_id : String
  p_buyer_wallet : String
  p_amount : Rat
deriving DecidableEq

def minTradesMsg (n : Rat) : String :=
  "Minimum " ++ toString n ++ " completed trades required"

def minRepMsg (n : Rat) : String :=
  "Minimum reputation score " ++ toString n ++ " required"

/-- The function `acceptFiatOffer` up to the atomic accept:
after authentication and the offer read, `tradeAmount = amount ||
offer.remaining_amount` (JavaScript `||`, so an explicit `0` also falls back to
the remaining amount), then the reputation gate runs when either threshold is
positive, and only afterwards is the `accept_p2p_offer` procedure invoked with
`p_amount = tradeAmount`. The returned `AcceptRpcCall` is that invocation; an
error result means the procedure was never reached. -/
def acceptFiatOffer (auth : Option String) (offerId : String)
    (buyerWallet : String) (amount : Option Rat)
    (offerLookup : Option P2PFiatOffer) (repLookup : Option ReputationView) :
    Except String AcceptRpcCall :=
  match auth with
  | none => Except.error "Not authenticated"
  | some userId =>
    match offerLookup with
    | none => Except.error "Offer not found"
    | some offer =>
      let tradeAmount : Rat :=
        match amount with
        | none => offer.remaining_amount
        | some a => if a == 0 then offer.remaining_amount else a
      let gate : Option String :=
        if offer.min_buyer_completed_trades > 0 ∨ offer.min_buyer_reputation > 0 then
          match repLookup with
          | none => some "Seller requires experienced buyers"
          | some rep =>
            if rep.completed_trades < offer.min_buyer_completed_trades then
              some (minTradesMsg offer.min_buyer_completed_trades)
            else if rep.reputation_score < offer.min_buyer_reputation then
              some (minRepMsg offer.min_buyer_reputation)
            else none
        else none
      match gate with
      | some e => Except.error e
      | none =>
        Except.ok
          { p_offer_id := offerId
            p_buyer_id := userId
            p_buyer_wallet := buyerWallet
            p_amount := tradeAmount }

/-- The row filter of `getActiveOffers`: `status = 'open'`, `remaining_amount >
0`, `expires_at > now`, plus the optional currency and token equality
filters. -/
def offerVisible (now : Int) (currency : Option FiatCurrency)
    (token : Option CryptoToken) (o : P2PFiatOffer) : Bool :=
  (o.status == OfferStatus.open')
    && decide (0 < o.remaining_amount)
    && decide (now < o.expires_at)
    && (match currency with
        | none => true
        | some c => o.fiat_currency == c)
    && (match token with
        | none => true
        | some t => o.token == t)

/-- Ascending order on `price_per_unit`, the sort key of
`order('price_per_unit')`. -/
def priceLE (a b : P2PFiatOffer) : Prop :=
  a.price_per_unit ≤ b.price_per_unit

instance : DecidableRel priceLE := fun a b =>
  inferInstanceAs (Decidable (a.price_per_unit ≤ b.price_per_unit))

instance : IsTotal P2PFiatOffer priceLE :=
  ⟨fun a b => le_total a.price_per_unit b.price_per_unit⟩

instance : IsTrans P2PFiatOffer priceLE :=
  ⟨fun _ _ _ hab hbc => le_trans hab hbc⟩

/-- The function `getActiveOffers(currency?, token?)` over a table snapshot `db`: the rows
passing the filter, sorted ascending by `price_per_unit`. -/
def getActiveOffers (db : List P2PFiatOffer) (now : Int)
    (currency : Option FiatCurrency) (token : Option CryptoToken) :
    List P2PFiatOffer :=
  List.insertionSort priceLE (db.filter (offerVisible now currency token))

inductive ReserveError
| OfferNotOpen
| AmountExceedsRemaining
| BelowMinOrder
| AboveMaxOrder
deriving DecidableEq

def belowMin (amount : Rat) (o : P2PFiatOffer) : Bool :=
  match o.min_order_amount with
  | some m => decide (amount < m)
  | none => false

def aboveMax (amount : Rat) (o : P2PFiatOffer) : Bool :=
  match o.max_order_amount with
  | some m => decide (m < amount)
  | none => false

/-- Modelled from the spec: the atomic reserve inside the `accept_p2p_offer`
database procedure is not part of the client source. Per the Offer Book
contract (tryReserve), it succeeds only when the offer is open, `amount ≤
remainingAmount` and the min/max order bounds hold; on success it atomically
decrements `remainingAmount`, flipping status to `locked` when it reaches
zero. -/
def tryReserve (amount : Rat) (o : P2PFiatOffer) :
    Except ReserveError P2PFiatOffer :=
  if o.status ≠ OfferStatus.open' then Except.error ReserveError.OfferNotOpen
  else if o.remaining_amount < amount then
    Except.error ReserveError.AmountExceedsRemaining
  else if belowMin amount o then Except.error ReserveError.BelowMinOrder
  else if aboveMax amount o then Except.error ReserveError.AboveMaxOrder
  else
    let rem := o.remaining_amount - amount
    Except.ok { o with
      remaining_amount := rem
      status := if rem == 0 then OfferStatus.locked else o.status }

/-- Sequential application of `tryReserve` requests in arrival order: the
linearization of concurrent reserve calls, each call an atomic step. Returns
the per-call outcomes and the final offer row. -/
def runReserves : List Rat → P2PFiatOffer →
    List (Except ReserveError Unit) × P2PFiatOffer
  | [], o => ([], o)
  | a :: as, o =>
    match tryReserve a o with
    | Except.ok o2 =>
      let r := runReserves as o2
      (Except.ok () :: r.1, r.2)
    | Except.error e =>
      let r := runReserves as o
      (Except.error e :: r.1, r.2)

/-! ## Theorems -/

theorem isEmpty_iff_nil (l : List (String × String)) : l.isEmpty = true ↔ l = [] := by
  cases l <;> simp

/-- C10: for every payment-details map and rule set, `validatePaymentDetails`
returns `valid = true` exactly when its errors map is empty; a rule with a
positive `minLength` makes an empty value fail even when the field is not
marked required; and the `pattern` rule is skipped entirely for an empty value
(the result does not depend on the pattern or on the regex oracle). -/
theorem validatePaymentDetails_valid_minLength_pattern :
    (∀ test paymentDetails validationRules,
      (validatePaymentDetails test paymentDetails validationRules).1 = true ↔
        (validatePaymentDetails test paymentDetails validationRules).2 = [])
    ∧ (∀ (test : String → String → Bool) (r : ValidationRule) (m : Nat),
        r.minLength = some m → 0 < m → r.required = false →
        (fieldError test "" r).isSome = true)
    ∧ (∀ (test₁ test₂ : String → String → Bool) (r : ValidationRule)
        (p₁ p₂ : Option String),
        fieldError test₁ "" { r with pattern := p₁ } =
          fieldError test₂ "" { r with pattern := p₂ }) := by
  refine ⟨?_, ?_, ?_⟩
  · intro test paymentDetails validationRules
    simp only [validatePaymentDetails]
    exact isEmpty_iff_nil _
  · intro test r m hm hpos hreq
    have hm0 : (m != 0) = true := by
      simp only [bne_iff_ne, ne_eq]
      omega
    cases hmax : r.maxLength with
    | none => simp [fieldError, hreq, hm, hmax, hm0, hpos]
    | some m2 => simp [fieldError, hreq, hm, hmax, hm0, hpos]
  · intro test₁ test₂ r p₁ p₂
    cases hreq : r.required with
    | true => simp [fieldError, hreq]
    | false =>
      cases p₁ with
      | none => cases p₂ with
        | none => simp [fieldError, hreq]
        | some p => simp [fieldError, hreq]
      | some q => cases p₂ with
        | none => simp [fieldError, hreq]
        | some p => simp [fieldError, hreq]

theorem validatePaymentDetails_valid_minLength_pattern_witness :
    (({ minLength := some 3 } : ValidationRule)).minLength = some 3
    ∧ 0 < 3
    ∧ (({ minLength := some 3 } : ValidationRule)).required = false
    ∧ (fieldError (fun _ _ => true) "" { minLength := some 3 }).isSome = true :=
  ⟨rfl, by decide, rfl,
    validatePaymentDetails_valid_minLength_pattern.2.1 (fun _ _ => true)
      { minLength := some 3 } 3 rfl (by decide) rfl⟩

/-- A trade that already completed: the failing input for the missing guard of
`markPaymentSent`. -/
def completedTradeSample : P2PFiatTrade :=
  { id := "t1", offer_id := "o1", seller_id := "maker", buyer_id := "taker",
    buyer_wallet := "wTaker", crypto_amount := 30, fiat_amount := 60,
    price_per_unit := 2, escrow_locked_amount := 0,
    status := TradeStatus.completed, payment_deadline := 900000,
    created_at := 0, completed_at := some 500000 }

/-- C3: `markPaymentSent` performs an unconditional row update: it consults
neither the current status nor the caller (its embedding does not even take an
acting user). On a trade that already completed it still flips the status to
`payment_sent` and sets a fresh confirmation deadline of now + 60 minutes,
where the claim demands that nothing change for a non-pending trade or a
non-taker caller. -/
theorem markPaymentSent_ignores_status_and_caller :
    completedTradeSample.status = TradeStatus.completed
    ∧ (markPaymentSent 1000000 none completedTradeSample).status =
        TradeStatus.payment_sent
    ∧ (markPaymentSent 1000000 none completedTradeSample).confirmation_deadline =
        some (1000000 + 60 * 60 * 1000)
    ∧ markPaymentSent 1000000 none completedTradeSample ≠ completedTradeSample := by
  decide

/-- A pending trade for 30 HEZ, its backing open offer with 70 remaining, and
the maker's ledger balance holding the 30 escrowed tokens: the failing input
for the missing ledger unlock of `cancelTrade`. -/
def pendingTradeSample : P2PFiatTrade :=
  { id := "t2", offer_id := "o2", seller_id := "maker", buyer_id := "taker",
    buyer_wallet := "wTaker", crypto_amount := 30, fiat_amount := 60,
    price_per_unit := 2, escrow_locked_amount := 30,
    status := TradeStatus.pending, payment_deadline := 900000, created_at := 0 }

def openOfferSample : P2PFiatOffer :=
  { id := "o2", seller_id := "maker", token := CryptoToken.HEZ,
    fiat_currency := FiatCurrency.USD, price_per_unit := 2,
    remaining_amount := 70, status := OfferStatus.open', expires_at := 9000000 }

def makerBalSample : InternalBalance :=
  { available_balance := 50, locked_balance := 30 }

/-- C1: at the failing input, `cancelTrade` succeeds, marks the trade
`cancelled` and restores the offer's remaining amount by the trade's 30 HEZ,
but it makes no ledger call at all: the maker's balance comes back unchanged
(locked stays 30 instead of decreasing to 0, available stays 50 instead of
increasing to 80), contradicting the claimed unlock. -/
theorem cancelTrade_makes_no_ledger_unlock :
    cancelTrade (some "taker") none (some pendingTradeSample)
        (some openOfferSample) makerBalSample =
      Except.ok
        { trade := { pendingTradeSample with
            status := TradeStatus.cancelled
            cancelled_by := some "taker" }
          offer := some { openOfferSample with remaining_amount := 100 }
          makerBal := makerBalSample }
    ∧ makerBalSample.locked_balance = 30
    ∧ makerBalSample.available_balance = 50 := by
  refine ⟨?_, by norm_num [makerBalSample], by norm_num [makerBalSample]⟩
  simp only [cancelTrade, pendingTradeSample, openOfferSample, makerBalSample]
  norm_num

/-- An offer the maker has cancelled, still backing a pending trade: the
failing input for the terminality of maker cancellation. -/
def cancelledOfferSample : P2PFiatOffer :=
  { id := "o2", seller_id := "maker", token := CryptoToken.HEZ,
    fiat_currency := FiatCurrency.USD, price_per_unit := 2,
    remaining_amount := 70, status := OfferStatus.cancelled,
    expires_at := 9000000 }

/-- C5: cancelling a pending trade whose backing offer the maker has already
cancelled sets that offer's status back to `'open'`: the compensating restore
in `cancelTrade` writes `status := 'open'` unconditionally, so maker
cancellation is not terminal, contradicting the claim. -/
theorem cancelTrade_reopens_cancelled_offer :
    cancelledOfferSample.status = OfferStatus.cancelled
    ∧ cancelTrade (some "taker") none (some pendingTradeSample)
          (some cancelledOfferSample) makerBalSample =
        Except.ok
          { trade := { pendingTradeSample with
              status := TradeStatus.cancelled
              cancelled_by := some "taker" }
            offer := some { cancelledOfferSample with
              remaining_amount := 100
              status := OfferStatus.open' }
            makerBal := makerBalSample } := by
  refine ⟨rfl, ?_⟩
  simp only [cancelTrade, pendingTradeSample, cancelledOfferSample, makerBalSample]
  norm_num

theorem confirmPaymentReceived_ok_iff (auth : Option String) (now : Int)
    (t : P2PFiatTrade) (sb bb : InternalBalance) (res : ConfirmResult) :
    confirmPaymentReceived auth now (some t) sb bb = Except.ok res ↔
      auth = some t.seller_id ∧ t.status = TradeStatus.payment_sent
      ∧ ¬ sb.locked_balance < t.crypto_amount
      ∧ res = { trade := { t with
                  seller_confirmed_at := some now
                  status := TradeStatus.completed
                  completed_at := some now }
                sellerBal := { sb with
                  locked_balance := sb.locked_balance - t.crypto_amount }
                buyerBal := { bb with
                  available_balance := bb.available_balance + t.crypto_amount } } := by
  cases auth with
  | none => simp [confirmPaymentReceived]
  | some sid =>
    simp only [confirmPaymentReceived, release_escrow_internal, Option.some.injEq]
    by_cases h1 : t.seller_id = sid
    · by_cases h2 : t.status = TradeStatus.payment_sent
      · by_cases h3 : sb.locked_balance < t.crypto_amount
        · simp [h1, h2, h3]
        · simp [h1, h2, h3, eq_comm]
      · simp [h1, h2]
    · simp [bne_iff_ne, h1]
      intro h
      exact absurd h.symm h1

/-- C2: `confirmPaymentReceived` succeeds only when the caller is the trade's
seller and the status is `payment_sent`; on success it moves the trade's
`crypto_amount` from the seller's locked balance to the buyer's available
balance, sets the status to `completed` and records `completed_at`; calling it
again on the resulting completed trade is rejected by the stale-state guard
(the source's message for it is "Payment not marked as sent") before any
second release is attempted. -/
theorem confirmPaymentReceived_correct :
    (∀ (auth : Option String) (now : Int) (tl : Option P2PFiatTrade)
        (sb bb : InternalBalance) (res : ConfirmResult),
      confirmPaymentReceived auth now tl sb bb = Except.ok res →
        ∃ t, tl = some t ∧ auth = some t.seller_id
          ∧ t.status = TradeStatus.payment_sent)
    ∧ (∀ (auth : Option String) (now : Int) (t : P2PFiatTrade)
        (sb bb : InternalBalance) (res : ConfirmResult),
      confirmPaymentReceived auth now (some t) sb bb = Except.ok res →
        res.sellerBal.locked_balance = sb.locked_balance - t.crypto_amount
        ∧ res.sellerBal.available_balance = sb.available_balance
        ∧ res.buyerBal.available_balance = bb.available_balance + t.crypto_amount
        ∧ res.buyerBal.locked_balance = bb.locked_balance
        ∧ res.trade.status = TradeStatus.completed
        ∧ res.trade.completed_at = some now
        ∧ ∀ (now2 : Int),
            confirmPaymentReceived auth now2 (some res.trade) res.sellerBal
              res.buyerBal = Except.error "Payment not marked as sent") := by
  constructor
  · intro auth now tl sb bb res h
    cases tl with
    | none =>
      cases auth <;> simp [confirmPaymentReceived] at h
    | some t =>
      obtain ⟨ha, hs, -, -⟩ := (confirmPaymentReceived_ok_iff auth now t sb bb res).1 h
      exact ⟨t, rfl, ha, hs⟩
  · intro auth now t sb bb res h
    obtain ⟨ha, hs, hl, hres⟩ := (confirmPaymentReceived_ok_iff auth now t sb bb res).1 h
    subst hres
    refine ⟨rfl, rfl, rfl, rfl, rfl, rfl, ?_⟩
    intro now2
    subst ha
    simp [confirmPaymentReceived]

def psTradeSample : P2PFiatTrade :=
  { id := "t3", offer_id := "o3", seller_id := "maker", buyer_id := "taker",
    buyer_wallet := "wTaker", crypto_amount := 30, fiat_amount := 60,
    price_per_unit := 2, escrow_locked_amount := 30,
    status := TradeStatus.payment_sent, payment_deadline := 900000,
    created_at := 0 }

def sellerBalSample : InternalBalance :=
  { available_balance := 50, locked_balance := 30 }

def buyerBalSample : InternalBalance :=
  { available_balance := 5, locked_balance := 0 }

def confirmResSample : ConfirmResult :=
  { trade := { psTradeSample with
      seller_confirmed_at := some 7
      status := TradeStatus.completed
      completed_at := some 7 }
    sellerBal := { available_balance := 50, locked_balance := 30 - 30 }
    buyerBal := { available_balance := 5 + 30, locked_balance := 0 } }

theorem confirmPaymentReceived_correct_witness :
    confirmPaymentReceived (some "maker") 7 (some psTradeSample)
        sellerBalSample buyerBalSample = Except.ok confirmResSample
    ∧ confirmResSample.trade.status = TradeStatus.completed
    ∧ confirmResSample.trade.completed_at = some 7
    ∧ confirmResSample.sellerBal.locked_balance =
        sellerBalSample.locked_balance - psTradeSample.crypto_amount
    ∧ confirmPaymentReceived (some "maker") 8 (some confirmResSample.trade)
        confirmResSample.sellerBal confirmResSample.buyerBal =
          Except.error "Payment not marked as sent" := by
  have h0 : confirmPaymentReceived (some "maker") 7 (some psTradeSample)
      sellerBalSample buyerBalSample = Except.ok confirmResSample := by
    simp [confirmPaymentReceived, release_escrow_internal, psTradeSample,
      sellerBalSample, buyerBalSample, confirmResSample]
  have H := confirmPaymentReceived_correct.2 (some "maker") 7 psTradeSample
    sellerBalSample buyerBalSample confirmResSample h0
  exact ⟨h0, H.2.2.2.2.1, H.2.2.2.2.2.1, H.1, H.2.2.2.2.2.2 8⟩

/-- C4: when an offer sets a non-zero minimum-completed-trades or
minimum-reputation threshold, `acceptFiatOffer` rejects a taker with no
reputation record (the source message for the spec's `InsufficientHistory`),
a taker below the completed-trades threshold, and a taker below the
reputation threshold. Each rejection returns `Except.error`, so the
`accept_p2p_offer` reservation — the function's only state-mutating call,
whose invocation is the `AcceptRpcCall` success value — is never reached and
no store is touched. -/
theorem acceptFiatOffer_reputation_gate :
    ∀ (userId offerId w : String) (amt : Option Rat) (offer : P2PFiatOffer),
      (0 < offer.min_buyer_completed_trades ∨ 0 < offer.min_buyer_reputation) →
      (acceptFiatOffer (some userId) offerId w amt (some offer) none =
          Except.error "Seller requires experienced buyers")
      ∧ (∀ rep : ReputationView,
          rep.completed_trades < offer.min_buyer_completed_trades →
          acceptFiatOffer (some userId) offerId w amt (some offer) (some rep) =
            Except.error (minTradesMsg offer.min_buyer_completed_trades))
      ∧ (∀ rep : ReputationView,
          offer.min_buyer_completed_trades ≤ rep.completed_trades →
          rep.reputation_score < offer.min_buyer_reputation →
          acceptFiatOffer (some userId) offerId w amt (some offer) (some rep) =
            Except.error (minRepMsg offer.min_buyer_reputation)) := by
  intro userId offerId w amt offer hthr
  refine ⟨?_, ?_, ?_⟩
  · simp [acceptFiatOffer, hthr]
  · intro rep hlt
    simp [acceptFiatOffer, hthr, hlt]
  · intro rep hge hlt
    simp [acceptFiatOffer, hthr, not_lt.2 hge, hlt]

def gatedOfferSample : P2PFiatOffer :=
  { id := "o4", seller_id := "maker", token := CryptoToken.HEZ,
    fiat_currency := FiatCurrency.USD, price_per_unit := 2,
    remaining_amount := 70, min_buyer_completed_trades := 5,
    status := OfferStatus.open', expires_at := 9000000 }

def weakRepSample : ReputationView :=
  { completed_trades := 2, reputation_score := 0 }

theorem acceptFiatOffer_reputation_gate_witness :
    (0 < gatedOfferSample.min_buyer_completed_trades
      ∨ 0 < gatedOfferSample.min_buyer_reputation)
    ∧ weakRepSample.completed_trades < gatedOfferSample.min_buyer_completed_trades
    ∧ acceptFiatOffer (some "taker") "o4" "wTaker" none (some gatedOfferSample)
        (some weakRepSample) =
      Except.error (minTradesMsg gatedOfferSample.min_buyer_completed_trades) :=
  ⟨Or.inl (by norm_num [gatedOfferSample]),
   by norm_num [gatedOfferSample, weakRepSample],
   (acceptFiatOffer_reputation_gate "taker" "o4" "wTaker" none gatedOfferSample
      (Or.inl (by norm_num [gatedOfferSample]))).2.1 weakRepSample
      (by norm_num [gatedOfferSample, weakRepSample])⟩

theorem acceptFiatOffer_none_ok_amount (auth : Option String) (offerId w : String)
    (offer : P2PFiatOffer) (rep : Option ReputationView) (r : AcceptRpcCall)
    (h : acceptFiatOffer auth offerId w none (some offer) rep = Except.ok r) :
    r.p_amount = offer.remaining_amount := by
  cases auth with
  | none => simp [acceptFiatOffer] at h
  | some uid =>
    by_cases hthr : (offer.min_buyer_completed_trades > 0 ∨ offer.min_buyer_reputation > 0)
    · cases rep with
      | none => simp [acceptFiatOffer, hthr] at h
      | some rv =>
        by_cases h1 : rv.completed_trades < offer.min_buyer_completed_trades
        · simp [acceptFiatOffer, hthr, h1] at h
        · by_cases h2 : rv.reputation_score < offer.min_buyer_reputation
          · simp [acceptFiatOffer, hthr, h1, h2] at h
          · simp [acceptFiatOffer, hthr, h1, h2] at h
            rw [← h]
    · simp [acceptFiatOffer, hthr] at h
      rw [← h]

/-- C8: with the `amount` argument omitted, a successful `acceptFiatOffer`
passes the offer's full `remaining_amount` — as read from the offer row — as
`p_amount` to the atomic `accept_p2p_offer` reservation. -/
theorem acceptFiatOffer_default_full_remaining :
    ∀ (auth : Option String) (offerId w : String) (offer : P2PFiatOffer)
      (rep : Option ReputationView) (r : AcceptRpcCall),
      acceptFiatOffer auth offerId w none (some offer) rep = Except.ok r →
      r.p_amount = offer.remaining_amount :=
  fun auth offerId w offer rep r h =>
    acceptFiatOffer_none_ok_amount auth offerId w offer rep r h

def rpcSample : AcceptRpcCall :=
  { p_offer_id := "o2", p_buyer_id := "taker", p_buyer_wallet := "wTaker",
    p_amount := 70 }

theorem acceptFiatOffer_default_full_remaining_witness :
    acceptFiatOffer (some "taker") "o2" "wTaker" none (some openOfferSample)
        none = Except.ok rpcSample
    ∧ rpcSample.p_amount = openOfferSample.remaining_amount := by
  have h0 : acceptFiatOffer (some "taker") "o2" "wTaker" none
      (some openOfferSample) none = Except.ok rpcSample := by
    simp [acceptFiatOffer, openOfferSample, rpcSample]
  exact ⟨h0, acceptFiatOffer_default_full_remaining (some "taker") "o2" "wTaker"
    openOfferSample none rpcSample h0⟩

/-- C9: an explicit amount of exactly `0` is not rejected: JavaScript `amount
|| offer.remaining_amount` treats `0` as absent, so the call behaves exactly
like a call with the amount omitted and a successful acceptance reserves the
offer's full remaining amount. -/
theorem acceptFiatOffer_zero_amount_as_omitted :
    (∀ (auth : Option String) (offerId w : String)
        (offerLookup : Option P2PFiatOffer) (rep : Option ReputationView),
      acceptFiatOffer auth offerId w (some 0) offerLookup rep =
        acceptFiatOffer auth offerId w none offerLookup rep)
    ∧ (∀ (auth : Option String) (offerId w : String) (offer : P2PFiatOffer)
        (rep : Option ReputationView) (r : AcceptRpcCall),
      acceptFiatOffer auth offerId w (some 0) (some offer) rep = Except.ok r →
      r.p_amount = offer.remaining_amount) := by
  have h1 : ∀ (auth : Option String) (offerId w : String)
      (offerLookup : Option P2PFiatOffer) (rep : Option ReputationView),
      acceptFiatOffer auth offerId w (some 0) offerLookup rep =
        acceptFiatOffer auth offerId w none offerLookup rep := by
    intro auth offerId w offerLookup rep
    cases auth <;> cases offerLookup <;> simp [acceptFiatOffer]
  exact ⟨h1, fun auth offerId w offer rep r h =>
    acceptFiatOffer_none_ok_amount auth offerId w offer rep r
      ((h1 auth offerId w (some offer) rep).symm.trans h)⟩

theorem acceptFiatOffer_zero_amount_as_omitted_witness :
    acceptFiatOffer (some "taker") "o2" "wTaker" (some 0) (some openOfferSample)
        none = Except.ok rpcSample
    ∧ rpcSample.p_amount = openOfferSample.remaining_amount := by
  have h0 : acceptFiatOffer (some "taker") "o2" "wTaker" (some 0)
      (some openOfferSample) none = Except.ok rpcSample := by
    simp [acceptFiatOffer, openOfferSample, rpcSample]
  exact ⟨h0, acceptFiatOffer_zero_amount_as_omitted.2 (some "taker") "o2"
    "wTaker" openOfferSample none rpcSample h0⟩

/-- C7: every offer returned by `getActiveOffers` is open, has positive
remaining amount and a not-yet-passed expiry, matches any supplied currency
and token filters, and the returned sequence is sorted ascending by
`price_per_unit`. -/
theorem getActiveOffers_filter_and_sorted :
    ∀ (db : List P2PFiatOffer) (now : Int) (currency : Option FiatCurrency)
      (token : Option CryptoToken),
      (∀ o ∈ getActiveOffers db now currency token,
        o.status = OfferStatus.open' ∧ 0 < o.remaining_amount
        ∧ now < o.expires_at
        ∧ (currency = none ∨ currency = some o.fiat_currency)
        ∧ (token = none ∨ token = some o.token))
      ∧ List.Sorted priceLE (getActiveOffers db now currency token) := by
  intro db now currency token
  constructor
  · intro o ho
    have hmem : o ∈ db.filter (offerVisible now currency token) :=
      (List.mem_insertionSort priceLE).1 ho
    have hvis : offerVisible now currency token o = true :=
      (List.mem_filter.1 hmem).2
    cases currency with
    | none =>
      cases token with
      | none =>
        simp only [offerVisible, Bool.and_eq_true, beq_iff_eq,
          decide_eq_true_eq, and_true] at hvis
        obtain ⟨⟨hs, hr⟩, he⟩ := hvis
        exact ⟨hs, hr, he, Or.inl rfl, Or.inl rfl⟩
      | some tt =>
        simp only [offerVisible, Bool.and_eq_true, beq_iff_eq,
          decide_eq_true_eq, and_true] at hvis
        obtain ⟨⟨⟨hs, hr⟩, he⟩, ht⟩ := hvis
        exact ⟨hs, hr, he, Or.inl rfl, Or.inr (by rw [ht])⟩
    | some c =>
      cases token with
      | none =>
        simp only [offerVisible, Bool.and_eq_true, beq_iff_eq,
          decide_eq_true_eq, and_true] at hvis
        obtain ⟨⟨⟨hs, hr⟩, he⟩, hc⟩ := hvis
        exact ⟨hs, hr, he, Or.inr (by rw [hc]), Or.inl rfl⟩
      | some tt =>
        simp only [offerVisible, Bool.and_eq_true, beq_iff_eq,
          decide_eq_true_eq, and_true] at hvis
        obtain ⟨⟨⟨⟨hs, hr⟩, he⟩, hc⟩, ht⟩ := hvis
        exact ⟨hs, hr, he, Or.inr (by rw [hc]), Or.inr (by rw [ht])⟩
  · exact List.sorted_insertionSort priceLE _

theorem getActiveOffers_filter_and_sorted_witness :
    openOfferSample.status = OfferStatus.open'
    ∧ 0 < openOfferSample.remaining_amount
    ∧ (0 : Int) < openOfferSample.expires_at
    ∧ ((none : Option FiatCurrency) = none
        ∨ (none : Option FiatCurrency) = some openOfferSample.fiat_currency)
    ∧ ((none : Option CryptoToken) = none
        ∨ (none : Option CryptoToken) = some openOfferSample.token) :=
  (getActiveOffers_filter_and_sorted [openOfferSample] 0 none none).1
    openOfferSample
    (by simp [getActiveOffers, offerVisible, openOfferSample,
      List.insertionSort, List.orderedInsert])

theorem runReserves_exhausted (n : Nat) :
    ∀ o : P2PFiatOffer, o.status = OfferStatus.open' →
      o.remaining_amount = 4 →
      runReserves (List.replicate n 6) o =
        (List.replicate n (Except.error ReserveError.AmountExceedsRemaining), o) := by
  induction n with
  | zero =>
    intro o _ _
    simp [runReserves]
  | succ k ih =>
    intro o h1 h2
    have hfail : tryReserve 6 o = Except.error ReserveError.AmountExceedsRemaining := by
      rw [tryReserve, if_neg (by rw [h1]; exact fun hc => hc rfl),
        if_pos (by rw [h2]; norm_num)]
    simp [List.replicate_succ, runReserves, hfail, ih o h1 h2]

/-- C6: the linearizable reserve never double-spends remaining capacity — for
any open offer with `remaining_amount = 10` and no order bounds, applying any
number of reservation requests of 6 (the linearization of that many concurrent
`tryReserve` calls) yields exactly one success, `AmountExceedsRemaining` for
every other call, and a final `remaining_amount` of 4. -/
theorem tryReserve_no_double_spend :
    ∀ (o : P2PFiatOffer) (n : Nat),
      o.status = OfferStatus.open' → o.remaining_amount = 10 →
      o.min_order_amount = none → o.max_order_amount = none →
      (runReserves (List.replicate (n + 1) 6) o).1 =
          Except.ok () ::
            List.replicate n (Except.error ReserveError.AmountExceedsRemaining)
      ∧ (runReserves (List.replicate (n + 1) 6) o).2.remaining_amount = 4 := by
  intro o n h1 h2 h3 h4
  have hok : tryReserve 6 o =
      Except.ok { o with remaining_amount := 4, status := OfferStatus.open' } := by
    rw [tryReserve, if_neg (by rw [h1]; exact fun hc => hc rfl),
      if_neg (by rw [h2]; norm_num), if_neg (by simp [belowMin, h3]),
      if_neg (by simp [aboveMax, h4])]
    have hrem : o.remaining_amount - 6 = 4 := by rw [h2]; norm_num
    simp [hrem, h1]
  have hrest := runReserves_exhausted n
    { o with remaining_amount := 4, status := OfferStatus.open' } rfl rfl
  rw [List.replicate_succ]
  simp [runReserves, hok, hrest]

def reserveOfferSample : P2PFiatOffer :=
  { id := "o6", seller_id := "maker", token := CryptoToken.HEZ,
    fiat_currency := FiatCurrency.USD, price_per_unit := 2,
    remaining_amount := 10, status := OfferStatus.open', expires_at := 9000000 }

theorem tryReserve_no_double_spend_witness :
    reserveOfferSample.status = OfferStatus.open'
    ∧ reserveOfferSample.remaining_amount = 10
    ∧ reserveOfferSample.min_order_amount = none
    ∧ reserveOfferSample.max_order_amount = none
    ∧ (runReserves (List.replicate (2 + 1) 6) reserveOfferSample).1 =
        Except.ok () ::
          List.replicate 2 (Except.error ReserveError.AmountExceedsRemaining)
    ∧ (runReserves (List.replicate (2 + 1) 6) reserveOfferSample).2.remaining_amount = 4 :=
  ⟨rfl, rfl, rfl, rfl,
   (tryReserve_no_double_spend reserveOfferSample 2 rfl rfl rfl rfl).1,
   (tryReserve_no_double_spend reserveOfferSample 2 rfl rfl rfl rfl).2⟩

end P2PFiat
